import Mathlib

/-!
Verification of the dietify-backend conversational agent core.

This file gives a shallow embedding, in Lean 4, of the parts of the
TypeScript source relevant to the agent loop, the tool handlers and the
streaming gateway:

* `memory_agent/tools.ts` (the `initializeTools` closure): the three tool
  handlers `upsertMemory`, `saveFoodIntake`, `saveWaterIntake` and their
  helpers `determineMealTypeFromTime`, `normalizeWaterUnit`,
  `convertWaterAmount`, together with the quantity-parsing regex.
* `memory_agent/graph.ts`: `routeMessage`, `storeData` and the graph edges.
* `memory_agent/configuration.ts`: `ensureConfiguration`.
* `api/v1/reply.ts`: the SSE streaming loop.

JavaScript numbers are modelled as exact rationals (`ℚ`); all numeric
inputs exercised by the spec are small and exactly representable, so no
floating-point rounding is observable at those inputs.  `Math.round` is
modelled as `⌊x + 1/2⌋`, its JavaScript semantics.  External effects
(Prisma database, in-memory store, wall clock, UUID generation, `Date`
parsing) are modelled by explicit state passing and oracle parameters.
-/

namespace Dietify

/-- JavaScript `Math.round`: half-up rounding towards +∞. -/
def jsRound (q : ℚ) : ℤ := ⌊q + 1/2⌋

/-- ASCII lower-casing of one character (the unit strings are ASCII). -/
def asciiToLower (c : Char) : Char :=
  if 'A' ≤ c ∧ c ≤ 'Z' then Char.ofNat (c.toNat + 32) else c

/-- Remove leading and trailing whitespace from a character list. -/
def trimChars (cs : List Char) : List Char :=
  (((cs.dropWhile Char.isWhitespace).reverse.dropWhile Char.isWhitespace).reverse)

/-- JavaScript `s.toLowerCase().trim()` as used on unit strings. -/
def lowerTrim (s : String) : String := ⟨trimChars (s.data.map asciiToLower)⟩

/-- JavaScript `v || d` for an optional string `v`: `undefined` and the
empty string are both falsy and replaced by the default. -/
def jsOrD (v : Option String) (d : String) : String :=
  match v with
  | some s => if s = "" then d else s
  | none => d

/-- JavaScript truthiness filter on an optional string: `undefined` and
`""` both behave as absent. -/
def jsTruthy (v : Option String) : Option String :=
  match v with
  | some s => if s = "" then none else some s
  | none => none

/-! ### Water unit normalization (`normalizeWaterUnit`, `convertWaterAmount`) -/

def mlUnits : List String := ["ml", "milliliter", "milliliters"]

def ozUnits : List String :=
  ["oz", "fl oz", "fluid ounce", "fluid ounces", "ounce", "ounces"]

def cupUnits : List String := ["cup", "cups"]

def literUnits : List String := ["liter", "liters", "l"]

/-- Function `normalizeWaterUnit` from `tools.ts`: lower-cases and trims the unit,
then maps it to `"ml"` or `"oz"`; cups and liters normalize to `"ml"`,
and any unrecognized unit defaults to `"ml"`. -/
def normalizeWaterUnit (unit : String) : String :=
  let normalizedUnit := lowerTrim unit
  if normalizedUnit ∈ mlUnits then "ml"
  else if normalizedUnit ∈ ozUnits then "oz"
  else if normalizedUnit ∈ cupUnits then "ml"
  else if normalizedUnit ∈ literUnits then "ml"
  else "ml"

/-- The source's `29.5735` ml-per-oz conversion factor, as an exact rational. -/
def ozFactor : ℚ := 295735 / 10000

/-- Function `convertWaterAmount` from `tools.ts`: converts `amount` from `fromUnit`
to ml (oz at 29.5735 ml/oz, cups at 250 ml, liters at 1000 ml, anything
else passed through), then to the target unit, rounding oz to two decimal
places and ml to the nearest whole number. -/
def convertWaterAmount (amount : ℚ) (fromUnit toUnit : String) : ℚ :=
  let normalizedFromUnit := lowerTrim fromUnit
  let mlAmount : ℚ :=
    if normalizedFromUnit ∈ ozUnits then amount * ozFactor
    else if normalizedFromUnit ∈ cupUnits then amount * 250
    else if normalizedFromUnit ∈ literUnits then amount * 1000
    else amount
  if toUnit = "oz" then (jsRound (mlAmount / ozFactor * 100) : ℚ) / 100
  else (jsRound mlAmount : ℚ)

/-! ### Dates and meal-type inference -/

/-- A JavaScript `Date` as observed by the tool handlers: the local hour
(`getHours()`, always in `0..23`) and its ISO rendering.  Wall-clock
parsing and time zones live outside the embedded core. -/
structure JsDate where
  localHour : Fin 24
  iso : String
deriving DecidableEq, Repr

/-- Function `determineMealTypeFromTime` from `tools.ts`: maps the local hour of the
consumption timestamp to a meal type. -/
def determineMealTypeFromTime (date : JsDate) : String :=
  let hour := (date.localHour : Nat)
  if 5 ≤ hour ∧ hour < 11 then "breakfast"
  else if 11 ≤ hour ∧ hour < 16 then "lunch"
  else if 16 ≤ hour ∧ hour < 22 then "dinner"
  else "snack"

/-! ### Quantity parsing (`saveFoodIntake`'s regex) -/

/-- Numeric value of a digit string. -/
def digitsToNat (cs : List Char) : Nat :=
  cs.foldl (fun n c => 10 * n + (c.toNat - 48)) 0

/-- Exact value of the decimal literal `intPart.fracPart` (this is what
`parseFloat` computes on the matched group; all inputs exercised by the
spec are exactly representable). -/
def decimalValue (intPart fracPart : List Char) : ℚ :=
  (digitsToNat intPart : ℚ) + (digitsToNat fracPart : ℚ) / ((10 : ℚ) ^ fracPart.length)

/-- Match the leading `\d+(?:\.\d+)?` of the source regex
`/^(\d+(?:\.\d+)?)\s*(.*)$/`, keeping the
digit lists of the integer and fractional parts (so that this stage stays
free of rational arithmetic and can be evaluated by `decide`). -/
def matchLeadingNumberRaw (cs : List Char) : Option ((List Char × List Char) × List Char) :=
  let intPart := cs.takeWhile Char.isDigit
  if intPart = [] then none
  else
    let rest := cs.dropWhile Char.isDigit
    match rest with
    | '.' :: afterDot =>
      let fracPart := afterDot.takeWhile Char.isDigit
      if fracPart = [] then some ((intPart, []), rest)
      else some ((intPart, fracPart), afterDot.dropWhile Char.isDigit)
    | _ => some ((intPart, []), rest)

/-- Full match of `/^(\d+(?:\.\d+)?)\s*(.*)$/` followed by the source's
`match[2].trim() || null`: after the number, `\s*` greedily consumes
whitespace and `(.*)$` takes the rest, which must not contain a line
break (`.` does not match `\n`/`\r`, and shrinking `\s*` cannot remove a
break sitting after a non-space character). -/
def quantityMatchRaw (s : String) : Option ((List Char × List Char) × Option String) :=
  match matchLeadingNumberRaw s.data with
  | none => none
  | some (numParts, rest) =>
    let group2 := rest.dropWhile Char.isWhitespace
    if group2.all (fun c => c ≠ '\n' ∧ c ≠ '\r') then
      let trimmed : String := ⟨trimChars group2⟩
      some (numParts, if trimmed = "" then none else some trimmed)
    else none

/-- The quantity-parsing logic of `saveFoodIntake`:
`quantityValue = match ? parseFloat(match[1]) : null` and
`quantityUnit = match ? match[2].trim() || null : quantity`. -/
def parseQuantity (quantity : String) : Option ℚ × Option String :=
  match quantityMatchRaw quantity with
  | some ((intPart, fracPart), unitOpt) => (some (decimalValue intPart fracPart), unitOpt)
  | none => (none, some quantity)

/-! ### Configuration (`configuration.ts`) -/

/-- Stand-in for the default system prompt of `prompts.ts`; its text is a
long conversational persona that no verified property depends on. -/
def SYSTEM_PROMPT : String := "You are YourFitnessHommie, a high-energy fitness influencer."

/-- The `config.configurable` payload reaching the agent: every field may
be absent, and `hasStore` records whether a store binding is attached to
the config (`config.store`). -/
structure RunnableConfig where
  userId : Option String
  threadId : Option String
  model : Option String
  systemPrompt : Option String
  hasStore : Bool
deriving DecidableEq

/-- The result of `ensureConfiguration`. -/
structure EnsuredConfig where
  thread_id : String
  userId : String
  model : String
  systemPrompt : String
deriving DecidableEq

/-- Function `ensureConfiguration` from `configuration.ts`: reads
`config?.configurable || {}` and fills each field with `||`-defaults; in
particular a missing (or empty) `userId` becomes the string `"default"`. -/
def ensureConfiguration (config : Option RunnableConfig) : EnsuredConfig :=
  let configurable := config
  { thread_id := jsOrD (configurable.bind (·.threadId)) "default"
    userId := jsOrD (configurable.bind (·.userId)) "default"
    model := jsOrD (configurable.bind (·.model)) "azure/gpt-4.1"
    systemPrompt := jsOrD (configurable.bind (·.systemPrompt)) SYSTEM_PROMPT }

/-! ### Persistent stores (Prisma tables and the in-memory memory store) -/

/-- One row of the `WaterIntakeLog` table, restricted to the columns the
tool handlers read or write. -/
structure WaterEntry where
  id : String
  userId : String
  amount : ℚ
  unit : String
  consumedAt : JsDate
  notes : Option String
  source : String
deriving DecidableEq

/-- One row of the `CaloriesIntakeLog` table.  The `quantity` column holds
`quantityValue?.toString() || "1"`; it is modelled by the parsed rational
(`none` encodes the literal `"1"` written for an unparsed quantity). -/
structure FoodEntry where
  id : String
  userId : String
  foodItem : String
  quantityValue : Option ℚ
  unit : Option String
  calories : ℚ
  carbs : Option ℚ
  proteins : Option ℚ
  fats : Option ℚ
  mealType : String
  consumedAt : JsDate
  notes : Option String
  source : String
deriving DecidableEq

/-- The relational store reached through Prisma.  `reachable` records
whether the backing database can be reached; every Prisma call throws
when it is `false`. -/
structure DB where
  water : List WaterEntry
  food : List FoodEntry
  reachable : Bool
deriving DecidableEq

/-- A value in the long-term memory store. -/
structure MemoryValue where
  content : String
  context : String
deriving DecidableEq

/-- The in-memory key/namespace store: entries are
(namespace userId, key, value). -/
structure MemStore where
  entries : List (String × String × MemoryValue)
deriving DecidableEq

/-- Operation `store.put(["memories", userId], key, value)`: overwrite the entry at
the same namespace and key, or add a new one. -/
def memPut (mem : MemStore) (ns key : String) (v : MemoryValue) : MemStore :=
  if mem.entries.any (fun e => e.1 = ns ∧ e.2.1 = key) then
    ⟨mem.entries.map (fun e => if e.1 = ns ∧ e.2.1 = key then (ns, key, v) else e)⟩
  else ⟨mem.entries ++ [(ns, key, v)]⟩

/-- JavaScript `v || null` on an optional number: `undefined` and `0` are
both falsy, so both become `null` (the spec's open question about zero
meaning "unknown"). -/
def jsNumTruthy (v : Option ℚ) : Option ℚ :=
  match v with
  | some q => if q = 0 then none else some q
  | none => none

/-! ### The tool handlers of `tools.ts` -/

/-- Arguments of the `saveWaterIntake` tool. -/
structure WaterOpts where
  amount : ℚ
  unit : String
  timestamp : Option String
  notes : Option String
  entryId : Option String
deriving DecidableEq

/-- Arguments of the `saveFoodIntake` tool. -/
structure FoodOpts where
  foodItem : String
  quantity : String
  calories : Option ℚ
  fats : Option ℚ
  carbs : Option ℚ
  proteins : Option ℚ
  mealType : Option String
  timestamp : Option String
  notes : Option String
deriving DecidableEq

/-- The return value of `saveWaterIntake`.  The source returns strings;
constructors record the data interpolated into each template:
`stored`/`updated` for the two confirmation strings, `errorSaving` for
the catch-all "some error occurred while saving water intake". -/
inductive WaterResult where
  | stored (entryId : String) (amount : ℚ) (unit : String)
      (normalizedAmount : ℚ) (normalizedUnit : String)
  | updated (entryId : String) (amount : ℚ) (unit : String)
      (normalizedAmount : ℚ) (normalizedUnit : String)
  | errorSaving
deriving DecidableEq

/-- The return value of `saveFoodIntake`: the confirmation string
`Stored food intake <id>: <quantity> of <foodItem> ... for <mealType>`
or the catch-all "some error occurred while saving food intake". -/
inductive FoodResult where
  | stored (entryId : String) (quantity : String) (foodItem : String) (mealType : String)
  | errorSaving
deriving DecidableEq

/-- Handler `upsertMemory` from `tools.ts`.  Throws (uncaught, hence
`Except.error`) when the config or its store binding is missing; there
is no try/catch around its body.  `freshId` is the `uuidv4()` oracle. -/
def upsertMemory (config : Option RunnableConfig) (freshId : String)
    (content context : String) (memoryId : Option String) (mem : MemStore) :
    Except String (String × MemStore) :=
  match config with
  | none => .error "Config or store not provided"
  | some cfg =>
    if cfg.hasStore = false then .error "Config or store not provided"
    else
      let configurable := ensureConfiguration (some cfg)
      let memId := jsOrD memoryId freshId
      .ok ("Stored memory " ++ memId,
        memPut mem configurable.userId memId ⟨content, context⟩)

/-- Either `new Date(timestamp)` when a timestamp is supplied, or `new Date()`
otherwise (`consumedAt` in both handlers). -/
def consumedDate (parseDate : String → JsDate) (now : JsDate)
    (timestamp : Option String) : JsDate :=
  match timestamp with
  | some t => parseDate t
  | none => now

/-- The `data` object of the Prisma `waterIntakeLog.update` call: the
updated columns of an existing row (the row's `id` and `userId` are not
touched). -/
def updateWaterEntry (amount : ℚ) (unit : String) (consumedAt : JsDate)
    (notes : Option String) (e : WaterEntry) : WaterEntry :=
  { e with
    amount := amount
    unit := unit
    consumedAt := consumedAt
    notes := notes
    source := "conversation" }

/-- The `data` object of the Prisma `waterIntakeLog.create` call. -/
def newWaterEntry (id userId : String) (amount : ℚ) (unit : String)
    (consumedAt : JsDate) (notes : Option String) : WaterEntry :=
  ⟨id, userId, amount, unit, consumedAt, notes, "conversation"⟩

/-- Handler `saveWaterIntake` from `tools.ts`.  The whole body sits in a
try/catch whose catch returns the error string, so the function is total:
every internal throw (missing userId, unreachable database, Prisma P2025
on updating a non-existent id) surfaces as `WaterResult.errorSaving`.
`parseDate`/`now` model `new Date(...)`, `freshId` the id Prisma
generates for a created row. -/
def saveWaterIntake (config : Option RunnableConfig) (parseDate : String → JsDate)
    (now : JsDate) (freshId : String) (opts : WaterOpts) (db : DB) :
    WaterResult × DB :=
  let configurable := ensureConfiguration config
  let userId := configurable.userId
  if userId = "" then (.errorSaving, db)
  else
    let consumedAt := consumedDate parseDate now opts.timestamp
    let normalizedUnit := normalizeWaterUnit opts.unit
    let normalizedAmount := convertWaterAmount opts.amount opts.unit normalizedUnit
    match jsTruthy opts.entryId with
    | some eid =>
      if db.reachable = false then (.errorSaving, db)
      else if db.water.any (fun e => e.id = eid) then
        (WaterResult.updated eid opts.amount opts.unit normalizedAmount normalizedUnit,
          { db with water := db.water.map (fun e =>
              if e.id = eid then
                updateWaterEntry normalizedAmount normalizedUnit consumedAt
                  (jsTruthy opts.notes) e
              else e) })
      else (.errorSaving, db)
    | none =>
      if db.reachable = false then (.errorSaving, db)
      else
        (WaterResult.stored freshId opts.amount opts.unit normalizedAmount normalizedUnit,
          { db with water := db.water ++
              [newWaterEntry freshId userId normalizedAmount normalizedUnit
                consumedAt (jsTruthy opts.notes)] })

/-- Handler `saveFoodIntake` from `tools.ts`.  Total for the same reason as
`saveWaterIntake`: the body is wrapped in a try/catch returning the error
string. -/
def saveFoodIntake (config : Option RunnableConfig) (parseDate : String → JsDate)
    (now : JsDate) (freshId : String) (opts : FoodOpts) (db : DB) :
    FoodResult × DB :=
  let configurable := ensureConfiguration config
  let userId := configurable.userId
  if userId = "" then (.errorSaving, db)
  else
    let parsed := parseQuantity opts.quantity
    let consumedAt := consumedDate parseDate now opts.timestamp
    let determinedMealType := match jsTruthy opts.mealType with
      | some mt => mt
      | none => determineMealTypeFromTime consumedAt
    if db.reachable = false then (.errorSaving, db)
    else
      (FoodResult.stored freshId opts.quantity opts.foodItem determinedMealType,
        { db with food := db.food ++
            [{ id := freshId
               userId := userId
               foodItem := opts.foodItem
               quantityValue := parsed.1
               unit := parsed.2
               calories := (opts.calories).getD 0
               carbs := jsNumTruthy opts.carbs
               proteins := jsNumTruthy opts.proteins
               fats := jsNumTruthy opts.fats
               mealType := determinedMealType
               consumedAt := consumedAt
               notes := jsTruthy opts.notes
               source := "conversation" }] })

/-! ### Messages and tool calls (the graph state of `graph.ts`) -/

/-- Schema-validated arguments of one tool call, one constructor per
registered tool schema. -/
inductive ToolArgs where
  | memory (content context : String) (memoryId : Option String)
  | food (opts : FoodOpts)
  | water (opts : WaterOpts)
deriving DecidableEq

/-- A tool-call request emitted by the model: `name`, `args`, `id`. -/
structure ToolCall where
  name : String
  args : ToolArgs
  id : String
deriving DecidableEq

/-- The content of a `ToolMessage`: each constructor records which
handler produced the result string. -/
inductive ToolOutcome where
  | memoryStored (confirmation : String)
  | foodOutcome (r : FoodResult)
  | waterOutcome (r : WaterResult)
deriving DecidableEq

/-- A `ToolMessage` produced by `tool.invoke(tc)`: the handler's result,
correlated to its request by `tool_call_id`. -/
structure ToolMsg where
  content : ToolOutcome
  tool_call_id : String
  name : String
deriving DecidableEq

/-- A message of the graph state: `HumanMessage`, `AIMessage` (with its
tool-call requests) or `ToolMessage`. -/
inductive Message where
  | human (content : String)
  | assistant (content : String) (tool_calls : List ToolCall)
  | toolResult (m : ToolMsg)
deriving DecidableEq

/-- Expression `lastMessage.tool_calls || []`: the tool calls of the last message of
the state; `undefined` (non-assistant last message or empty history)
behaves as the empty list. -/
def lastToolCalls (msgs : List Message) : List ToolCall :=
  match msgs.getLast? with
  | some (.assistant _ tcs) => tcs
  | _ => []

/-- The targets of the conditional edge out of `call_model`. -/
inductive Route where
  | store_data
  | endRun
deriving DecidableEq

/-- Function `routeMessage` from `graph.ts`: route to `store_data` iff the last
(assistant) message carries at least one tool call
(`lastMessage.tool_calls?.length` is truthy), to `END` otherwise. -/
def routeMessage (msgs : List Message) : Route :=
  match msgs.getLast? with
  | some (.assistant _ tcs) => if tcs.length ≠ 0 then .store_data else .endRun
  | _ => .endRun

/-- The two inner nodes of the compiled state graph. -/
inductive Node where
  | callModelNode
  | storeDataNode
deriving DecidableEq

/-- The edges declared on the builder: `START → call_model`,
`call_model → (routeMessage)`, `store_data → call_model`.  `none` is
`END`: the run terminates and no further node executes this turn. -/
def graphNext (n : Node) (msgs : List Message) : Option Node :=
  match n with
  | .callModelNode =>
    match routeMessage msgs with
    | .store_data => some .storeDataNode
    | .endRun => none
  | .storeDataNode => some .callModelNode

/-- The entry edge `START → call_model`. -/
def entryNode : Node := .callModelNode

/-! ### Tool dispatch (`storeData` in `graph.ts`) -/

/-- The ambient context of one dispatch: the runnable config, the `Date`
oracles, the id generator (indexed by call position) and the stores. -/
structure Env where
  config : Option RunnableConfig
  parseDate : String → JsDate
  now : JsDate
  freshId : Nat → String
  db : DB
  mem : MemStore

/-- The keys of the `toolMap` built from `initializeTools`. -/
def registeredToolNames : List String :=
  ["upsertMemory", "saveFoodIntake", "saveWaterIntake"]

/-- One `tool.invoke(tc)` inside the dispatch loop: an unknown tool name
throws `Tool <name> not found` before invocation; arguments that do not
match the named tool's zod schema make `invoke` throw; otherwise the
handler runs and its result is wrapped in a `ToolMessage` carrying the
request's `callId`. -/
def invokeTool (env : Env) (callIdx : Nat) (tc : ToolCall) : Except String ToolMsg :=
  if tc.name ∈ registeredToolNames then
    match tc.name, tc.args with
    | "upsertMemory", .memory content context memoryId =>
      match upsertMemory env.config (env.freshId callIdx) content context memoryId env.mem with
      | .error e => .error e
      | .ok (confirmation, _) => .ok ⟨.memoryStored confirmation, tc.id, tc.name⟩
    | "saveFoodIntake", .food opts =>
      .ok ⟨.foodOutcome
            (saveFoodIntake env.config env.parseDate env.now (env.freshId callIdx) opts env.db).1,
          tc.id, tc.name⟩
    | "saveWaterIntake", .water opts =>
      .ok ⟨.waterOutcome
            (saveWaterIntake env.config env.parseDate env.now (env.freshId callIdx) opts env.db).1,
          tc.id, tc.name⟩
    | _, _ => .error "Received tool input did not match expected schema"
  else .error ("Tool " ++ tc.name ++ " not found")

/-- The `Promise.all(toolCalls.map(...))` of `storeData`: invoke every
requested call; the promise resolves to the results in positional
(request) order, or rejects if any invocation throws. -/
def collectToolResults (env : Env) (callIdx : Nat) :
    List ToolCall → Except String (List Message)
  | [] => .ok []
  | tc :: rest =>
    match invokeTool env callIdx tc with
    | .error e => .error e
    | .ok m =>
      match collectToolResults env (callIdx + 1) rest with
      | .error e => .error e
      | .ok ms => .ok (Message.toolResult m :: ms)

/-- Function `storeData` from `graph.ts`: read the tool calls of the last
(assistant) message and dispatch them all; the returned messages extend
the history. -/
def storeData (env : Env) (msgs : List Message) : Except String (List Message) :=
  collectToolResults env 0 (lastToolCalls msgs)

/-! ### Completion-order model of `Promise.all`

`Promise.all` starts every promise, lets them complete in an arbitrary
order, writes each result into the slot of its own request index and
resolves with the slots read off in index order.  `fillSlots` performs
the writes in completion order; the theorems show the assembled output
is independent of that order. -/

/-- Write `f j` into slot `j` for each `j` of `order` (the completion
order), starting from `init`. -/
def fillSlots {α : Type} (f : Nat → α) (order : List Nat) (init : Nat → Option α) :
    Nat → Option α :=
  order.foldl (fun g j => Function.update g j (some (f j))) init

/-- Slots assembled in index order after all completions. -/
def promiseAllModel {α : Type} (f : Nat → α) (order : List Nat) (n : Nat) :
    List (Option α) :=
  (List.range n).map (fillSlots f order (fun _ => none))

/-! ### Streaming gateway (`api/v1/reply.ts`) -/

/-- One chunk of the `streamMode: "messages"` stream: an
`AIMessageChunk` (with its `tool_call_chunks`) or any other message
chunk flowing through the graph. -/
inductive StreamChunk where
  | aiChunk (content : String) (tool_call_chunks : List String)
  | otherChunk (content : String)
deriving DecidableEq

/-- One SSE event written by the gateway:
`{ id: Date.now(), type: "message", content, timestamp: toISOString() }`. -/
structure StreamEvent where
  id : Nat
  type : String
  content : String
  timestamp : String
deriving DecidableEq

/-- The SSE loop of `reply.ts`.  `clock k` is the value `Date.now()`
returns at the `k`-th emission and `iso k` the matching
`new Date().toISOString()`; both are oracles for the wall clock, which
JavaScript only guarantees to be non-decreasing.  An AI chunk with
tool-call chunks is logged and skipped; any other AI chunk is emitted as
one `message` event; non-AI chunks are never emitted. -/
def streamLoop (clock : Nat → Nat) (iso : Nat → String) :
    Nat → List StreamChunk → List StreamEvent
  | _, [] => []
  | k, .aiChunk content tccs :: rest =>
    if tccs.length ≠ 0 then streamLoop clock iso k rest
    else ⟨clock k, "message", content, iso k⟩ :: streamLoop clock iso (k + 1) rest
  | k, .otherChunk _ :: rest => streamLoop clock iso k rest

/-- The user-visible texts of a chunk stream: contents of the AI chunks
that carry no tool-call chunk, in stream order. -/
def visibleTexts : List StreamChunk → List String
  | [] => []
  | .aiChunk content tccs :: rest =>
    if tccs.length ≠ 0 then visibleTexts rest else content :: visibleTexts rest
  | .otherChunk _ :: rest => visibleTexts rest

/-! ### The agent loop and checkpointing -/

/-- The assistant message the LLM provider returns for one invocation. -/
structure AssistantReply where
  content : String
  tool_calls : List ToolCall

/-- One turn of the compiled graph, run in memory: starting at
`call_model` with the accumulated history, alternate model invocation
and tool dispatch along the graph edges until `routeMessage` returns
`END`.  `oracle` is the (deterministic) LLM provider; `fuel` bounds the
number of model invocations.  A dispatch error aborts the run, leaving
the history extended by the assistant message only. -/
def runLoop (oracle : List Message → AssistantReply) (env : Env) :
    Nat → List Message → List Message
  | 0, msgs => msgs
  | fuel + 1, msgs =>
    let reply := oracle msgs
    let extended := msgs ++ [Message.assistant reply.content reply.tool_calls]
    match routeMessage extended with
    | .endRun => extended
    | .store_data =>
      match storeData env extended with
      | .error _ => extended
      | .ok results => runLoop oracle env fuel (extended ++ results)

/-- Modelled from the spec: the Persistent Checkpoint Store
(`PostgresSaver`, an external collaborator compiled into the graph) —
`load(threadId) -> history|empty`, `append(threadId, newEvents)`,
durable and read-after-write consistent for a single thread.  A thread
with no checkpoint loads as the empty history. -/
def saveCheckpoint (cp : String → List Message) (tid : String)
    (msgs : List Message) : String → List Message :=
  fun t => if t = tid then msgs else cp t

/-- Modelled from the spec: the same turn as `runLoop`, but writing the
thread's checkpoint after every transition, as the spec requires of the
compiled graph ("Every transition appends to the Checkpoint for the
current thread before proceeding"). -/
def runLoopCheckpointed (oracle : List Message → AssistantReply) (env : Env) :
    Nat → List Message → (String → List Message) → String → (String → List Message)
  | 0, msgs, cp, tid => saveCheckpoint cp tid msgs
  | fuel + 1, msgs, cp, tid =>
    let reply := oracle msgs
    let extended := msgs ++ [Message.assistant reply.content reply.tool_calls]
    let cp1 := saveCheckpoint cp tid extended
    match routeMessage extended with
    | .endRun => cp1
    | .store_data =>
      match storeData env extended with
      | .error _ => cp1
      | .ok results =>
        runLoopCheckpointed oracle env fuel (extended ++ results)
          (saveCheckpoint cp1 tid (extended ++ results)) tid

/-- Modelled from the spec: resuming a thread — load the checkpointed
history, append the new human message, run one turn, checkpointing along
the way. -/
def runTurnFromCheckpoint (oracle : List Message → AssistantReply) (env : Env)
    (fuel : Nat) (cp : String → List Message) (tid : String) (newMsg : Message) :
    String → List Message :=
  runLoopCheckpointed oracle env fuel (cp tid ++ [newMsg]) cp tid

/-! ## Fixtures for witnesses and counterexamples -/

/-- A concrete date: local hour 12. -/
def d0 : JsDate := ⟨⟨12, by decide⟩, "2025-01-01T12:00:00.000Z"⟩

/-- A config with a present user. -/
def cfg0 : Option RunnableConfig := some ⟨some "u1", some "t1", none, none, true⟩

/-- A config whose `configurable.userId` is absent. -/
def cfgNoUser : Option RunnableConfig := some ⟨none, some "t1", none, none, true⟩

/-- An empty, reachable database. -/
def emptyDB : DB := ⟨[], [], true⟩

/-- An empty, unreachable database. -/
def downDB : DB := ⟨[], [], false⟩

/-- A dispatch environment over the empty reachable stores. -/
def env0 : Env := ⟨cfg0, fun _ => d0, d0, fun _ => "w1", emptyDB, ⟨[]⟩⟩

/-- A dispatch environment whose database is unreachable. -/
def envDown : Env := ⟨cfg0, fun _ => d0, d0, fun _ => "w1", downDB, ⟨[]⟩⟩

/-- A concrete water tool call. -/
def waterCall : ToolCall :=
  ⟨"saveWaterIntake", ToolArgs.water ⟨500, "ml", none, none, none⟩, "call1"⟩

/-- A tool call whose name is not registered. -/
def unknownCall : ToolCall :=
  ⟨"deleteEverything", ToolArgs.memory "" "" none, "call2"⟩

/-! ## C7 -/

/-- Whether the string opens with a decimal digit (the only way the
source regex `^(\d+...)` can start matching). -/
def startsWithDigit (s : String) : Bool :=
  match s.data with
  | [] => false
  | c :: _ => c.isDigit

/-- An LLM oracle that always answers `"ok"` with no tool calls. -/
def oracle0 : List Message → AssistantReply := fun _ => ⟨"ok", []⟩

/-- A checkpoint store holding one prior human message for every thread. -/
def cpH : String → List Message := fun _ => [Message.human "earlier"]

/-! ## Lemmas, claim theorems, witnesses and counterexamples -/

lemma lowerTrim_cups : lowerTrim "cups" = "cups" := by decide

lemma lowerTrim_oz : lowerTrim "oz" = "oz" := by decide

example : normalizeWaterUnit "cups" = "ml" := by decide

example : normalizeWaterUnit "oz" = "oz" := by decide

example : convertWaterAmount 2 "cups" "ml" = 500 := by
  simp [convertWaterAmount, lowerTrim_cups, mlUnits, ozUnits, cupUnits, literUnits,
    jsRound, ozFactor]
  norm_num

example : convertWaterAmount 8 "oz" "oz" = 8 := by
  simp [convertWaterAmount, lowerTrim_oz, mlUnits, ozUnits, cupUnits, literUnits,
    jsRound, ozFactor]
  norm_num

example : convertWaterAmount 8 "oz" "ml" = 237 := by
  simp [convertWaterAmount, lowerTrim_oz, mlUnits, ozUnits, cupUnits, literUnits,
    jsRound, ozFactor]
  norm_num

lemma parseQuantity_pos (s : String) (ip fp : List Char) (u : Option String) (v : ℚ)
    (h1 : quantityMatchRaw s = some ((ip, fp), u)) (h2 : decimalValue ip fp = v) :
    parseQuantity s = (some v, u) := by
  simp [parseQuantity, h1, h2]

lemma parseQuantity_neg (s : String) (h : quantityMatchRaw s = none) :
    parseQuantity s = (none, some s) := by
  simp [parseQuantity, h]

lemma decimalValue_nilFrac (ip : List Char) :
    decimalValue ip [] = (digitsToNat ip : ℚ) := by
  simp [decimalValue, digitsToNat]

example : parseQuantity "150g" = (some 150, some "g") := by
  refine parseQuantity_pos _ ['1','5','0'] [] (some "g") 150 (by decide) ?_
  rw [decimalValue_nilFrac]
  norm_num [show digitsToNat ['1','5','0'] = 150 from by decide]

example : parseQuantity "1 cup" = (some 1, some "cup") := by
  refine parseQuantity_pos _ ['1'] [] (some "cup") 1 (by decide) ?_
  rw [decimalValue_nilFrac]
  norm_num [show digitsToNat ['1'] = 1 from by decide]

example : parseQuantity "apple" = (none, some "apple") := by
  exact parseQuantity_neg _ (by decide)

example : parseQuantity "1.5 l" = (some (3/2), some "l") := by
  refine parseQuantity_pos _ ['1'] ['5'] (some "l") (3/2) (by decide) ?_
  norm_num [decimalValue, show digitsToNat ['1'] = 1 from by decide,
    show digitsToNat ['5'] = 5 from by decide]

example : parseQuantity "150" = (some 150, none) := by
  refine parseQuantity_pos _ ['1','5','0'] [] none 150 (by decide) ?_
  rw [decimalValue_nilFrac]
  norm_num [show digitsToNat ['1','5','0'] = 150 from by decide]

example : (ensureConfiguration none).userId = "default" := by decide

lemma fillSlots_cons {α : Type} (f : Nat → α) (a : Nat) (rest : List Nat)
    (init : Nat → Option α) :
    fillSlots f (a :: rest) init = fillSlots f rest (Function.update init a (some (f a))) := rfl

lemma fillSlots_not_mem {α : Type} (f : Nat → α) (order : List Nat)
    (init : Nat → Option α) (j : Nat) (h : j ∉ order) :
    fillSlots f order init j = init j := by
  induction order generalizing init with
  | nil => rfl
  | cons a rest ih =>
    rw [fillSlots_cons, ih _ (fun hj => h (List.mem_cons_of_mem a hj))]
    have hne : j ≠ a := by
      intro hj
      exact h (hj ▸ List.mem_cons_self a rest)
    exact Function.update_noteq hne _ init

lemma fillSlots_mem {α : Type} (f : Nat → α) (order : List Nat)
    (init : Nat → Option α) (j : Nat) (h : j ∈ order) :
    fillSlots f order init j = some (f j) := by
  induction order generalizing init with
  | nil => cases h
  | cons a rest ih =>
    rw [fillSlots_cons]
    by_cases hj : j ∈ rest
    · exact ih _ hj
    · have hja : j = a := by
        rcases List.mem_cons.mp h with h1 | h2
        · exact h1
        · exact absurd h2 hj
      subst hja
      rw [fillSlots_not_mem _ _ _ _ hj]
      exact Function.update_same j _ init

/-- Completion-order independence: when every index completes, the
assembled result list is the request-ordered list of results, whatever
the completion order was. -/
lemma promiseAllModel_complete {α : Type} (f : Nat → α) (order : List Nat) (n : Nat)
    (h : ∀ j, j < n → j ∈ order) :
    promiseAllModel f order n = (List.range n).map (fun j => some (f j)) := by
  unfold promiseAllModel
  apply List.map_congr_left
  intro j hj
  exact fillSlots_mem f order _ j (h j (List.mem_range.mp hj))

/-! ## Shared helper lemmas -/

lemma jsOrD_ne_empty (v : Option String) (d : String) (hd : d ≠ "") :
    jsOrD v d ≠ "" := by
  cases v with
  | none => exact hd
  | some s =>
    show (if s = "" then d else s) ≠ ""
    by_cases hs : s = ""
    · rw [if_pos hs]; exact hd
    · rw [if_neg hs]; exact hs

/-- Function `ensureConfiguration` never yields an empty `userId`: a missing or
empty one is replaced by `"default"`. -/
lemma ensuredUserId_ne (config : Option RunnableConfig) :
    (ensureConfiguration config).userId ≠ "" := by
  unfold ensureConfiguration
  exact jsOrD_ne_empty _ _ (by decide)

lemma saveWaterIntake_update_branch (config : Option RunnableConfig)
    (pd : String → JsDate) (now : JsDate) (fid : String) (opts : WaterOpts)
    (db : DB) (eid : String) (he : jsTruthy opts.entryId = some eid)
    (hr : db.reachable = true)
    (hex : db.water.any (fun e => e.id = eid) = true) :
    saveWaterIntake config pd now fid opts db =
      (WaterResult.updated eid opts.amount opts.unit
         (convertWaterAmount opts.amount opts.unit (normalizeWaterUnit opts.unit))
         (normalizeWaterUnit opts.unit),
       { db with water := db.water.map (fun e =>
           if e.id = eid then
             updateWaterEntry
               (convertWaterAmount opts.amount opts.unit (normalizeWaterUnit opts.unit))
               (normalizeWaterUnit opts.unit)
               (consumedDate pd now opts.timestamp) (jsTruthy opts.notes) e
           else e) }) := by
  simp [saveWaterIntake, ensuredUserId_ne config, he, hr, hex]

lemma saveWaterIntake_notFound_branch (config : Option RunnableConfig)
    (pd : String → JsDate) (now : JsDate) (fid : String) (opts : WaterOpts)
    (db : DB) (eid : String) (he : jsTruthy opts.entryId = some eid)
    (hex : db.water.any (fun e => e.id = eid) = false) :
    saveWaterIntake config pd now fid opts db = (WaterResult.errorSaving, db) := by
  by_cases hr : db.reachable = true
  · simp [saveWaterIntake, ensuredUserId_ne config, he, hr, hex]
  · simp [saveWaterIntake, ensuredUserId_ne config, he,
      show db.reachable = false from by simpa using hr]

lemma saveWaterIntake_create_branch (config : Option RunnableConfig)
    (pd : String → JsDate) (now : JsDate) (fid : String) (opts : WaterOpts)
    (db : DB) (he : jsTruthy opts.entryId = none) (hr : db.reachable = true) :
    saveWaterIntake config pd now fid opts db =
      (WaterResult.stored fid opts.amount opts.unit
         (convertWaterAmount opts.amount opts.unit (normalizeWaterUnit opts.unit))
         (normalizeWaterUnit opts.unit),
       { db with water := db.water ++
           [newWaterEntry fid (ensureConfiguration config).userId
              (convertWaterAmount opts.amount opts.unit (normalizeWaterUnit opts.unit))
              (normalizeWaterUnit opts.unit)
              (consumedDate pd now opts.timestamp) (jsTruthy opts.notes)] }) := by
  simp [saveWaterIntake, ensuredUserId_ne config, he, hr]

lemma saveWaterIntake_unreachable (config : Option RunnableConfig)
    (pd : String → JsDate) (now : JsDate) (fid : String) (opts : WaterOpts)
    (db : DB) (hr : db.reachable = false) :
    saveWaterIntake config pd now fid opts db = (WaterResult.errorSaving, db) := by
  cases he : jsTruthy opts.entryId with
  | none => simp [saveWaterIntake, ensuredUserId_ne config, he, hr]
  | some eid => simp [saveWaterIntake, ensuredUserId_ne config, he, hr]

lemma saveFoodIntake_reachable (config : Option RunnableConfig)
    (pd : String → JsDate) (now : JsDate) (fid : String) (opts : FoodOpts)
    (db : DB) (hr : db.reachable = true) :
    saveFoodIntake config pd now fid opts db =
      (FoodResult.stored fid opts.quantity opts.foodItem
         (match jsTruthy opts.mealType with
          | some mt => mt
          | none => determineMealTypeFromTime (consumedDate pd now opts.timestamp)),
       { db with food := db.food ++
           [{ id := fid
              userId := (ensureConfiguration config).userId
              foodItem := opts.foodItem
              quantityValue := (parseQuantity opts.quantity).1
              unit := (parseQuantity opts.quantity).2
              calories := (opts.calories).getD 0
              carbs := jsNumTruthy opts.carbs
              proteins := jsNumTruthy opts.proteins
              fats := jsNumTruthy opts.fats
              mealType := match jsTruthy opts.mealType with
                | some mt => mt
                | none => determineMealTypeFromTime (consumedDate pd now opts.timestamp)
              consumedAt := consumedDate pd now opts.timestamp
              notes := jsTruthy opts.notes
              source := "conversation" }] }) := by
  simp [saveFoodIntake, ensuredUserId_ne config, hr]

lemma saveFoodIntake_unreachable (config : Option RunnableConfig)
    (pd : String → JsDate) (now : JsDate) (fid : String) (opts : FoodOpts)
    (db : DB) (hr : db.reachable = false) :
    saveFoodIntake config pd now fid opts db = (FoodResult.errorSaving, db) := by
  simp [saveFoodIntake, ensuredUserId_ne config, hr]

lemma lastToolCalls_assistant (msgs : List Message) (c : String) (tcs : List ToolCall)
    (h : msgs.getLast? = some (Message.assistant c tcs)) :
    lastToolCalls msgs = tcs := by
  unfold lastToolCalls
  rw [h]

/-- Every successful `tool.invoke(tc)` tags its `ToolMessage` with the
request's call id and tool name. -/
lemma invokeTool_ok_fields (env : Env) (k : Nat) (tc : ToolCall) (tm : ToolMsg)
    (h : invokeTool env k tc = .ok tm) :
    tm.tool_call_id = tc.id ∧ tm.name = tc.name := by
  unfold invokeTool at h
  split at h
  · split at h
    · split at h
      · cases h
      · cases h; exact ⟨rfl, rfl⟩
    · cases h; exact ⟨rfl, rfl⟩
    · cases h; exact ⟨rfl, rfl⟩
    · cases h
  · cases h

lemma collectToolResults_ok (env : Env) :
    ∀ (tcs : List ToolCall) (k : Nat),
      (∀ tc ∈ tcs, ∀ j, ∃ m, invokeTool env j tc = .ok m) →
      ∃ res : List Message, collectToolResults env k tcs = .ok res ∧
        res.length = tcs.length ∧
        ∀ i (hi : i < tcs.length) (hi2 : i < res.length), ∃ tm : ToolMsg,
          res.get ⟨i, hi2⟩ = Message.toolResult tm ∧
          tm.tool_call_id = (tcs.get ⟨i, hi⟩).id := by
  intro tcs
  induction tcs with
  | nil =>
    intro k _
    exact ⟨[], rfl, rfl, fun i hi _ => absurd hi (by simp)⟩
  | cons tc rest ih =>
    intro k h
    obtain ⟨m, hm⟩ := h tc (List.mem_cons_self tc rest) k
    obtain ⟨res, hres, hlen, hget⟩ :=
      ih (k + 1) (fun tc' h' j => h tc' (List.mem_cons_of_mem tc h') j)
    refine ⟨Message.toolResult m :: res, ?_, by simp [hlen], ?_⟩
    · unfold collectToolResults
      rw [hm, hres]
    · intro i hi hi2
      cases i with
      | zero =>
        exact ⟨m, rfl, (invokeTool_ok_fields env k tc m hm).1⟩
      | succ n =>
        obtain ⟨tm, h1, h2⟩ := hget n (by simpa using hi) (by simpa using hi2)
        exact ⟨tm, h1, h2⟩

/-- If some requested call throws for every completion position, the
whole `Promise.all` rejects. -/
lemma collectToolResults_error (env : Env) :
    ∀ (tcs : List ToolCall) (k : Nat) (tc : ToolCall), tc ∈ tcs →
      (∀ j, ∃ e, invokeTool env j tc = .error e) →
      ∃ e, collectToolResults env k tcs = .error e := by
  intro tcs
  induction tcs with
  | nil => intro k tc h _; cases h
  | cons tc0 rest ih =>
    intro k tc hmem herr
    rcases List.mem_cons.mp hmem with heq | htail
    · subst heq
      obtain ⟨e, he⟩ := herr k
      refine ⟨e, ?_⟩
      unfold collectToolResults
      rw [he]
    · cases hinv : invokeTool env k tc0 with
      | error e =>
        refine ⟨e, ?_⟩
        unfold collectToolResults
        rw [hinv]
      | ok m =>
        obtain ⟨e, he⟩ := ih (k + 1) tc htail herr
        refine ⟨e, ?_⟩
        unfold collectToolResults
        rw [hinv, he]

lemma range_map_getD {α : Type} (l : List α) (d : α) :
    (List.range l.length).map (fun j => some (l.getD j d)) = l.map some := by
  apply List.ext_getElem
  · simp
  · intro i h1 h2
    have hi : i < l.length := by simpa using h2
    simp [List.getElem_map, List.getElem_range, List.getD_eq_getElem?_getD,
      List.getElem?_eq_getElem hi]

lemma streamLoop_cons_tool (clock : Nat → Nat) (iso : Nat → String) (k : Nat)
    (content : String) (tccs : List String) (rest : List StreamChunk)
    (h : tccs.length ≠ 0) :
    streamLoop clock iso k (StreamChunk.aiChunk content tccs :: rest) =
      streamLoop clock iso k rest := by
  simp [streamLoop, h]

lemma streamLoop_cons_text (clock : Nat → Nat) (iso : Nat → String) (k : Nat)
    (content : String) (tccs : List String) (rest : List StreamChunk)
    (h : ¬ tccs.length ≠ 0) :
    streamLoop clock iso k (StreamChunk.aiChunk content tccs :: rest) =
      ⟨clock k, "message", content, iso k⟩ :: streamLoop clock iso (k + 1) rest := by
  simp only [streamLoop, if_neg h]

lemma streamLoop_cons_other (clock : Nat → Nat) (iso : Nat → String) (k : Nat)
    (content : String) (rest : List StreamChunk) :
    streamLoop clock iso k (StreamChunk.otherChunk content :: rest) =
      streamLoop clock iso k rest := rfl

lemma streamLoop_contents (clock : Nat → Nat) (iso : Nat → String) :
    ∀ (chunks : List StreamChunk) (k : Nat),
      (streamLoop clock iso k chunks).map (fun e => e.content) = visibleTexts chunks := by
  intro chunks
  induction chunks with
  | nil => intro k; rfl
  | cons c rest ih =>
    intro k
    cases c with
    | aiChunk content tccs =>
      by_cases h : tccs.length ≠ 0
      · rw [streamLoop_cons_tool clock iso k content tccs rest h]
        simp [visibleTexts, h, ih k]
      · rw [streamLoop_cons_text clock iso k content tccs rest h]
        simp [visibleTexts, h, ih (k + 1)]
    | otherChunk content =>
      rw [streamLoop_cons_other clock iso k content rest]
      simp [visibleTexts, ih k]

lemma streamLoop_mem (clock : Nat → Nat) (iso : Nat → String) :
    ∀ (chunks : List StreamChunk) (k : Nat) (e : StreamEvent),
      e ∈ streamLoop clock iso k chunks →
      e.type = "message" ∧ ∃ j, k ≤ j ∧ e.id = clock j ∧ e.timestamp = iso j := by
  intro chunks
  induction chunks with
  | nil => intro k e he; cases he
  | cons c rest ih =>
    intro k e he
    cases c with
    | aiChunk content tccs =>
      by_cases h : tccs.length ≠ 0
      · rw [streamLoop_cons_tool clock iso k content tccs rest h] at he
        exact ih k e he
      · rw [streamLoop_cons_text clock iso k content tccs rest h] at he
        rcases List.mem_cons.mp he with heq | htail
        · subst heq
          exact ⟨rfl, k, Nat.le_refl k, rfl, rfl⟩
        · obtain ⟨ht, j, hj, hid, hiso⟩ := ih (k + 1) e htail
          exact ⟨ht, j, Nat.le_of_succ_le hj, hid, hiso⟩
    | otherChunk content =>
      rw [streamLoop_cons_other clock iso k content rest] at he
      exact ih k e he

lemma streamLoop_ids_sorted (clock : Nat → Nat) (iso : Nat → String)
    (hm : Monotone clock) :
    ∀ (chunks : List StreamChunk) (k : Nat),
      ((streamLoop clock iso k chunks).map (fun e => e.id)).Sorted (· ≤ ·) := by
  intro chunks
  induction chunks with
  | nil => intro k; simp [streamLoop]
  | cons c rest ih =>
    intro k
    cases c with
    | aiChunk content tccs =>
      by_cases h : tccs.length ≠ 0
      · rw [streamLoop_cons_tool clock iso k content tccs rest h]; exact ih k
      · rw [streamLoop_cons_text clock iso k content tccs rest h]
        rw [List.map_cons, List.sorted_cons]
        refine ⟨?_, ih (k + 1)⟩
        intro b hb
        obtain ⟨e, he, hbe⟩ := List.mem_map.mp hb
        obtain ⟨-, j, hj, hid, -⟩ := streamLoop_mem clock iso rest (k + 1) e he
        rw [← hbe, hid]
        exact hm (Nat.le_of_lt (Nat.lt_of_lt_of_le (Nat.lt_succ_self k) hj))
    | otherChunk content =>
      rw [streamLoop_cons_other clock iso k content rest]; exact ih k

lemma streamLoop_ids_strictSorted (clock : Nat → Nat) (iso : Nat → String)
    (hm : StrictMono clock) :
    ∀ (chunks : List StreamChunk) (k : Nat),
      ((streamLoop clock iso k chunks).map (fun e => e.id)).Sorted (· < ·) := by
  intro chunks
  induction chunks with
  | nil => intro k; simp [streamLoop]
  | cons c rest ih =>
    intro k
    cases c with
    | aiChunk content tccs =>
      by_cases h : tccs.length ≠ 0
      · rw [streamLoop_cons_tool clock iso k content tccs rest h]; exact ih k
      · rw [streamLoop_cons_text clock iso k content tccs rest h]
        rw [List.map_cons, List.sorted_cons]
        refine ⟨?_, ih (k + 1)⟩
        intro b hb
        obtain ⟨e, he, hbe⟩ := List.mem_map.mp hb
        obtain ⟨-, j, hj, hid, -⟩ := streamLoop_mem clock iso rest (k + 1) e he
        rw [← hbe, hid]
        exact hm (Nat.lt_of_lt_of_le (Nat.lt_succ_self k) hj)
    | otherChunk content =>
      rw [streamLoop_cons_other clock iso k content rest]; exact ih k

lemma runLoopCheckpointed_at_tid (oracle : List Message → AssistantReply) (env : Env) :
    ∀ (fuel : Nat) (msgs : List Message) (cp : String → List Message) (tid : String),
      runLoopCheckpointed oracle env fuel msgs cp tid tid =
        runLoop oracle env fuel msgs := by
  intro fuel
  induction fuel with
  | zero => intro msgs cp tid; simp [runLoopCheckpointed, runLoop, saveCheckpoint]
  | succ n ih =>
    intro msgs cp tid
    simp only [runLoopCheckpointed, runLoop]
    cases hroute : routeMessage
        (msgs ++ [Message.assistant (oracle msgs).content (oracle msgs).tool_calls]) with
    | endRun => simp [saveCheckpoint]
    | store_data =>
      cases hsd : storeData env
          (msgs ++ [Message.assistant (oracle msgs).content (oracle msgs).tool_calls]) with
      | error e => simp [saveCheckpoint]
      | ok results => exact ih _ _ _

lemma runLoop_extends (oracle : List Message → AssistantReply) (env : Env) :
    ∀ (fuel : Nat) (msgs : List Message),
      ∃ rest, runLoop oracle env fuel msgs = msgs ++ rest := by
  intro fuel
  induction fuel with
  | zero => intro msgs; exact ⟨[], (List.append_nil msgs).symm⟩
  | succ n ih =>
    intro msgs
    simp only [runLoop]
    cases hroute : routeMessage
        (msgs ++ [Message.assistant (oracle msgs).content (oracle msgs).tool_calls]) with
    | endRun =>
      exact ⟨[Message.assistant (oracle msgs).content (oracle msgs).tool_calls], rfl⟩
    | store_data =>
      cases hsd : storeData env
          (msgs ++ [Message.assistant (oracle msgs).content (oracle msgs).tool_calls]) with
      | error e =>
        exact ⟨[Message.assistant (oracle msgs).content (oracle msgs).tool_calls], rfl⟩
      | ok results =>
        obtain ⟨rest, hr⟩ :=
          ih ((msgs ++ [Message.assistant (oracle msgs).content (oracle msgs).tool_calls])
            ++ results)
        refine ⟨[Message.assistant (oracle msgs).content (oracle msgs).tool_calls]
          ++ results ++ rest, ?_⟩
        dsimp only
        rw [hr]
        simp

lemma countP_map_update (l : List WaterEntry) (eid : String)
    (g : WaterEntry → WaterEntry) (hg : ∀ e, (g e).id = e.id) :
    (l.map (fun e => if e.id = eid then g e else e)).countP
        (fun e => decide (e.id = eid))
      = l.countP (fun e => decide (e.id = eid)) := by
  induction l with
  | nil => rfl
  | cons a rest ih =>
    rw [List.map_cons, List.countP_cons, List.countP_cons, ih]
    by_cases ha : a.id = eid
    · simp [ha, hg]
    · simp [ha]

lemma any_id_iff_countP_pos (l : List WaterEntry) (eid : String) :
    l.any (fun e => e.id = eid) = true ↔
      0 < l.countP (fun e => decide (e.id = eid)) := by
  rw [List.any_eq_true, List.countP_pos_iff]

/-! ## C1 -/

/-- C1: in every agent-loop state whose last message is an assistant
message, the conditional edge out of `call_model` goes to `store_data`
(Dispatching) iff the message carries one or more tool-call requests, and
goes to `END` (Done — the turn ends, no further node and hence no further
model invocation runs) iff it carries none. -/
theorem c1_invoking_transition (msgs : List Message) (c : String) (tcs : List ToolCall)
    (h : msgs.getLast? = some (Message.assistant c tcs)) :
    (graphNext Node.callModelNode msgs = some Node.storeDataNode ↔ tcs ≠ []) ∧
    (graphNext Node.callModelNode msgs = none ↔ tcs = []) := by
  unfold graphNext routeMessage
  rw [h]
  by_cases htc : tcs = []
  · subst htc
    simp
  · have hlen : tcs.length ≠ 0 := by simpa [List.length_eq_zero] using htc
    simp [hlen, htc]

/-- Witness for C1 at a concrete one-message state. -/
theorem c1_invoking_transition_witness :
    (graphNext Node.callModelNode [Message.assistant "hi" []] = some Node.storeDataNode
        ↔ ([] : List ToolCall) ≠ []) ∧
    (graphNext Node.callModelNode [Message.assistant "hi" []] = none
        ↔ ([] : List ToolCall) = []) :=
  c1_invoking_transition [Message.assistant "hi" []] "hi" [] rfl

/-! ## C2 -/

/-- C2: dispatching one assistant turn whose message carries n ≥ 1
resolvable tool calls yields exactly one tool-result message per
request, each tagged with its request's call id, listed in request
order; and assembling the per-index results under any completion order
(`promiseAllModel`, the `Promise.all` model) returns that same
request-ordered list, so history extension is in request order, not
completion order. -/
theorem c2_dispatch_request_order (env : Env) (msgs : List Message) (c : String)
    (tcs : List ToolCall) (hlast : msgs.getLast? = some (Message.assistant c tcs))
    (_hne : tcs ≠ [])
    (hok : ∀ tc ∈ tcs, ∀ j, ∃ m, invokeTool env j tc = .ok m) :
    ∃ results : List Message,
      storeData env msgs = .ok results ∧
      results.length = tcs.length ∧
      (∀ i (hi : i < tcs.length) (hi2 : i < results.length), ∃ tm : ToolMsg,
        results.get ⟨i, hi2⟩ = Message.toolResult tm ∧
        tm.tool_call_id = (tcs.get ⟨i, hi⟩).id) ∧
      (∀ order : List Nat, (∀ j, j < tcs.length → j ∈ order) →
        promiseAllModel (fun j => results.getD j (Message.human "")) order tcs.length
          = results.map some) := by
  obtain ⟨res, hres, hlen, hget⟩ := collectToolResults_ok env tcs 0 hok
  refine ⟨res, ?_, hlen, hget, ?_⟩
  · unfold storeData
    rw [lastToolCalls_assistant msgs c tcs hlast, hres]
  · intro order hcov
    rw [promiseAllModel_complete _ order tcs.length hcov, ← hlen]
    exact range_map_getD res (Message.human "")

/-- Witness for C2: a single water tool call dispatched against the
concrete environment. -/
theorem c2_dispatch_request_order_witness :
    ∃ results : List Message,
      storeData env0 [Message.assistant "" [waterCall]] = .ok results ∧
      results.length = [waterCall].length ∧
      (∀ i (hi : i < [waterCall].length) (hi2 : i < results.length), ∃ tm : ToolMsg,
        results.get ⟨i, hi2⟩ = Message.toolResult tm ∧
        tm.tool_call_id = ([waterCall].get ⟨i, hi⟩).id) ∧
      (∀ order : List Nat, (∀ j, j < [waterCall].length → j ∈ order) →
        promiseAllModel (fun j => results.getD j (Message.human "")) order
            [waterCall].length
          = results.map some) := by
  refine c2_dispatch_request_order env0 [Message.assistant "" [waterCall]] ""
    [waterCall] rfl (by simp) ?_
  intro tc htc j
  rw [List.mem_singleton.mp htc]
  exact ⟨_, rfl⟩

/-! ## C3 -/

/-- C3 counterexample: at `(amount = 8, unit = "oz")` the code keeps the
unit `"oz"` and returns amount `8`, whereas the claim asserts the pair
normalizes to `(227, "ml")`. -/
theorem c3_oz_example_counterexample :
    normalizeWaterUnit "oz" = "oz" ∧
    convertWaterAmount 8 "oz" (normalizeWaterUnit "oz") = 8 ∧
    ¬ (normalizeWaterUnit "oz" = "ml" ∧
        convertWaterAmount 8 "oz" (normalizeWaterUnit "oz") = 227) := by
  have hn : normalizeWaterUnit "oz" = "oz" := by decide
  refine ⟨hn, ?_, ?_⟩
  · rw [hn]
    simp [convertWaterAmount, lowerTrim_oz, mlUnits, ozUnits, cupUnits, literUnits,
      jsRound, ozFactor]
    norm_num
  · intro hc
    rw [hn] at hc
    exact absurd hc.1 (by decide)

/-- C3 (amended): `normalizeWaterUnit` maps every unit to `"ml"` or
`"oz"` (oz-family units stay `"oz"`; ml/cup/liter families and anything
unrecognized become `"ml"`); `convertWaterAmount` converts at 250 ml per
cup, 1000 ml per liter and 29.5735 ml per oz, rounding ml results to a
whole number and oz results to two decimal places; `(2, "cups")`
normalizes to `(500, "ml")`, and `(8, "oz")` normalizes to `(8, "oz")`
(not `(227, "ml")`). -/
theorem c3_amended_normalization :
    (∀ u : String, normalizeWaterUnit u = "ml" ∨ normalizeWaterUnit u = "oz") ∧
    (∀ u : String, normalizeWaterUnit u = "oz" ↔
      (lowerTrim u ∉ mlUnits ∧ lowerTrim u ∈ ozUnits)) ∧
    (∀ (a : ℚ) (u : String), lowerTrim u ∈ cupUnits →
      normalizeWaterUnit u = "ml" ∧
      convertWaterAmount a u "ml" = (jsRound (a * 250) : ℚ)) ∧
    (∀ (a : ℚ) (u : String), lowerTrim u ∈ literUnits →
      normalizeWaterUnit u = "ml" ∧
      convertWaterAmount a u "ml" = (jsRound (a * 1000) : ℚ)) ∧
    (∀ (a : ℚ) (u : String), lowerTrim u ∈ ozUnits →
      convertWaterAmount a u "oz" = ((jsRound (a * ozFactor / ozFactor * 100) : ℚ) / 100)) ∧
    (∀ (a : ℚ) (u : String), lowerTrim u ∉ ozUnits → lowerTrim u ∉ cupUnits →
      lowerTrim u ∉ literUnits →
      convertWaterAmount a u "ml" = (jsRound a : ℚ)) ∧
    (∀ (a : ℚ) (u : String), ∃ k : ℤ, convertWaterAmount a u "ml" = (k : ℚ)) ∧
    (∀ (a : ℚ) (u : String), ∃ k : ℤ, convertWaterAmount a u "oz" = (k : ℚ) / 100) ∧
    (normalizeWaterUnit "cups" = "ml" ∧
      convertWaterAmount 2 "cups" (normalizeWaterUnit "cups") = 500) ∧
    (normalizeWaterUnit "oz" = "oz" ∧
      convertWaterAmount 8 "oz" (normalizeWaterUnit "oz") = 8) := by
  refine ⟨?_, ?_, ?_, ?_, ?_, ?_, ?_, ?_, ?_, ?_⟩
  · intro u
    simp only [normalizeWaterUnit]
    split_ifs <;> simp
  · intro u
    simp only [normalizeWaterUnit]
    split_ifs with h1 h2 <;> simp_all
  · intro a u h
    have h' : lowerTrim u = "cup" ∨ lowerTrim u = "cups" := by
      simpa [cupUnits] using h
    rcases h' with h' | h' <;>
      exact ⟨by simp [normalizeWaterUnit, h', mlUnits, ozUnits, cupUnits, literUnits],
        by simp [convertWaterAmount, h', mlUnits, ozUnits, cupUnits, literUnits]⟩
  · intro a u h
    have h' : lowerTrim u = "liter" ∨ lowerTrim u = "liters" ∨ lowerTrim u = "l" := by
      simpa [literUnits] using h
    rcases h' with h' | h' | h' <;>
      exact ⟨by simp [normalizeWaterUnit, h', mlUnits, ozUnits, cupUnits, literUnits],
        by simp [convertWaterAmount, h', mlUnits, ozUnits, cupUnits, literUnits]⟩
  · intro a u h
    simp [convertWaterAmount, h]
  · intro a u h1 h2 h3
    simp [convertWaterAmount, h1, h2, h3]
  · intro a u
    simp only [convertWaterAmount]
    rw [if_neg (by decide : ¬ ("ml" : String) = "oz")]
    exact ⟨_, rfl⟩
  · intro a u
    simp only [convertWaterAmount, if_true]
    exact ⟨_, rfl⟩
  · refine ⟨by decide, ?_⟩
    rw [show normalizeWaterUnit "cups" = "ml" from by decide]
    simp [convertWaterAmount, lowerTrim_cups, mlUnits, ozUnits, cupUnits, literUnits,
      jsRound, ozFactor]
    norm_num
  · refine ⟨by decide, ?_⟩
    rw [show normalizeWaterUnit "oz" = "oz" from by decide]
    simp [convertWaterAmount, lowerTrim_oz, mlUnits, ozUnits, cupUnits, literUnits,
      jsRound, ozFactor]
    norm_num

/-- Witness for C3 (amended) at the cups example. -/
theorem c3_amended_normalization_witness :
    normalizeWaterUnit "cups" = "ml" ∧
    convertWaterAmount 2 "cups" "ml" = (jsRound (2 * 250) : ℚ) :=
  c3_amended_normalization.2.2.1 2 "cups" (by decide)

/-! ## C4 -/

/-- C4 counterexample: with the user identity absent from the call's
context, `saveWaterIntake` does not fail at all, let alone fatally:
`ensureConfiguration` silently substitutes the user id `"default"`, the
handler's own userId guard never fires, the entry is stored under
`"default"` and a confirmation is returned, so the run continues. -/
theorem c4_missing_user_counterexample :
    (ensureConfiguration cfgNoUser).userId = "default" ∧
    (saveWaterIntake cfgNoUser (fun _ => d0) d0 "w1"
        ⟨500, "ml", none, none, none⟩ emptyDB).1
      = WaterResult.stored "w1" 500 "ml" 500 "ml" ∧
    (saveWaterIntake cfgNoUser (fun _ => d0) d0 "w1"
        ⟨500, "ml", none, none, none⟩ emptyDB).2.water
      = [newWaterEntry "w1" "default" 500 "ml" d0 none] := by
  have hn : normalizeWaterUnit "ml" = "ml" := by decide
  have hc : convertWaterAmount 500 "ml" "ml" = 500 := by
    simp [convertWaterAmount, show lowerTrim "ml" = "ml" from by decide, mlUnits,
      ozUnits, cupUnits, literUnits, jsRound, ozFactor]
    norm_num
  have h := saveWaterIntake_create_branch cfgNoUser (fun _ => d0) d0 "w1"
    ⟨500, "ml", none, none, none⟩ emptyDB rfl rfl
  rw [hn, hc] at h
  refine ⟨by decide, by rw [h], ?_⟩
  rw [h]
  simp [emptyDB, show (ensureConfiguration cfgNoUser).userId = "default" from by decide,
    consumedDate, jsTruthy]

/-- C4 (amended): a missing user identity is not treated as an error:
`ensureConfiguration` replaces a missing (or empty) `userId` with the
fallback string `"default"`, so the handlers' userId guards never fire
and the handlers proceed, persisting under user `"default"`; moreover
internal failures of `saveWaterIntake`/`saveFoodIntake` (for example an
unreachable backing store) are caught and returned as error results, not
fatal aborts. -/
theorem c4_amended_missing_user :
    (∀ config : Option RunnableConfig, (ensureConfiguration config).userId ≠ "") ∧
    (∀ (pd : String → JsDate) (now : JsDate) (fid : String) (opts : WaterOpts)
        (db : DB) (config : Option RunnableConfig),
      (config = none ∨ ∃ c, config = some c ∧ c.userId = none) →
      opts.entryId = none → db.reachable = true →
      (saveWaterIntake config pd now fid opts db).1 =
        WaterResult.stored fid opts.amount opts.unit
          (convertWaterAmount opts.amount opts.unit (normalizeWaterUnit opts.unit))
          (normalizeWaterUnit opts.unit) ∧
      (saveWaterIntake config pd now fid opts db).2.water =
        db.water ++ [newWaterEntry fid "default"
          (convertWaterAmount opts.amount opts.unit (normalizeWaterUnit opts.unit))
          (normalizeWaterUnit opts.unit) (consumedDate pd now opts.timestamp)
          (jsTruthy opts.notes)]) ∧
    (∀ config pd now fid (opts : WaterOpts) db, db.reachable = false →
      saveWaterIntake config pd now fid opts db = (WaterResult.errorSaving, db)) ∧
    (∀ config pd now fid (opts : FoodOpts) db, db.reachable = false →
      saveFoodIntake config pd now fid opts db = (FoodResult.errorSaving, db)) := by
  refine ⟨ensuredUserId_ne, ?_, saveWaterIntake_unreachable, saveFoodIntake_unreachable⟩
  intro pd now fid opts db config hmissing hent hr
  have huid : (ensureConfiguration config).userId = "default" := by
    rcases hmissing with rfl | ⟨c, rfl, hc⟩
    · rfl
    · simp [ensureConfiguration, jsOrD, hc]
  have hjs : jsTruthy opts.entryId = none := by rw [hent]; rfl
  have h := saveWaterIntake_create_branch config pd now fid opts db hjs hr
  exact ⟨by rw [h], by rw [h, huid]⟩

/-- Witness for C4 (amended): concrete missing-user call. -/
theorem c4_amended_missing_user_witness :
    (saveWaterIntake cfgNoUser (fun _ => d0) d0 "w1"
        ⟨250, "oz", none, none, none⟩ emptyDB).1 =
      WaterResult.stored "w1" 250 "oz"
        (convertWaterAmount 250 "oz" (normalizeWaterUnit "oz"))
        (normalizeWaterUnit "oz") ∧
    (saveWaterIntake cfgNoUser (fun _ => d0) d0 "w1"
        ⟨250, "oz", none, none, none⟩ emptyDB).2.water =
      [] ++ [newWaterEntry "w1" "default"
        (convertWaterAmount 250 "oz" (normalizeWaterUnit "oz"))
        (normalizeWaterUnit "oz") (consumedDate (fun _ => d0) d0 none)
        (jsTruthy none)] :=
  c4_amended_missing_user.2.1 (fun _ => d0) d0 "w1" ⟨250, "oz", none, none, none⟩
    emptyDB cfgNoUser (Or.inr ⟨_, rfl, rfl⟩) rfl rfl

/-! ## C5 -/

/-- Properties of the update branch of `saveWaterIntake`: updating an
existing id rewrites that row in place — the list keeps its length, the
number of rows carrying the id is unchanged, the other tables and the
reachability flag are untouched. -/
lemma saveWaterIntake_update_props (config : Option RunnableConfig)
    (pd : String → JsDate) (now : JsDate) (fid : String) (opts : WaterOpts)
    (db : DB) (eid : String) (hent : opts.entryId = some eid) (heid : eid ≠ "")
    (hr : db.reachable = true)
    (hpos : 0 < db.water.countP (fun e => decide (e.id = eid))) :
    (saveWaterIntake config pd now fid opts db).1 =
      WaterResult.updated eid opts.amount opts.unit
        (convertWaterAmount opts.amount opts.unit (normalizeWaterUnit opts.unit))
        (normalizeWaterUnit opts.unit) ∧
    (saveWaterIntake config pd now fid opts db).2.water.length = db.water.length ∧
    (saveWaterIntake config pd now fid opts db).2.water.countP
        (fun e => decide (e.id = eid))
      = db.water.countP (fun e => decide (e.id = eid)) ∧
    (saveWaterIntake config pd now fid opts db).2.reachable = true ∧
    (saveWaterIntake config pd now fid opts db).2.food = db.food := by
  have hjs : jsTruthy opts.entryId = some eid := by
    rw [hent]
    simp [jsTruthy, heid]
  have hex : db.water.any (fun e => e.id = eid) = true :=
    (any_id_iff_countP_pos db.water eid).mpr hpos
  have h := saveWaterIntake_update_branch config pd now fid opts db eid hjs hr hex
  refine ⟨by rw [h], ?_, ?_, by rw [h]; exact hr, by rw [h]⟩
  · rw [h]
    exact List.length_map db.water _
  · rw [h]
    exact countP_map_update db.water eid _ (fun e => rfl)

/-- C5 counterexample: `entryId = "e1"` supplied against a store holding
no such entry — the Prisma update throws (record not found), the catch
returns the error result and the store is unchanged: no new entry is
created, contradicting the claim's "otherwise a new entry is created". -/
theorem c5_missing_entry_counterexample :
    saveWaterIntake cfg0 (fun _ => d0) d0 "w1"
        ⟨250, "ml", none, none, some "e1"⟩ emptyDB
      = (WaterResult.errorSaving, emptyDB) :=
  saveWaterIntake_notFound_branch cfg0 (fun _ => d0) d0 "w1"
    ⟨250, "ml", none, none, some "e1"⟩ emptyDB "e1" rfl rfl

/-- C5 (amended): if `entryId` is supplied and an entry with that id
exists, the entry is updated in place (calling twice with the same
`entryId` leaves exactly one matching record, not two); if `entryId` is
supplied but no entry with that id exists, the update fails and an error
result is returned with no entry created; only when `entryId` is absent
is a new entry created. -/
theorem c5_amended_upsert_semantics :
    (∀ config pd now fid (opts : WaterOpts) db eid,
      opts.entryId = some eid → eid ≠ "" → db.reachable = true →
      0 < db.water.countP (fun e => decide (e.id = eid)) →
      (saveWaterIntake config pd now fid opts db).1 =
        WaterResult.updated eid opts.amount opts.unit
          (convertWaterAmount opts.amount opts.unit (normalizeWaterUnit opts.unit))
          (normalizeWaterUnit opts.unit) ∧
      (saveWaterIntake config pd now fid opts db).2.water.length
        = db.water.length ∧
      (saveWaterIntake config pd now fid opts db).2.water.countP
          (fun e => decide (e.id = eid))
        = db.water.countP (fun e => decide (e.id = eid))) ∧
    (∀ config pd now fid fid' (opts opts' : WaterOpts) db eid,
      opts.entryId = some eid → opts'.entryId = some eid → eid ≠ "" →
      db.reachable = true →
      db.water.countP (fun e => decide (e.id = eid)) = 1 →
      ((saveWaterIntake config pd now fid' opts'
          (saveWaterIntake config pd now fid opts db).2).2.water.countP
          (fun e => decide (e.id = eid)) = 1 ∧
       (saveWaterIntake config pd now fid' opts'
          (saveWaterIntake config pd now fid opts db).2).2.water.length
          = db.water.length)) ∧
    (∀ config pd now fid (opts : WaterOpts) db eid,
      opts.entryId = some eid → eid ≠ "" →
      db.water.countP (fun e => decide (e.id = eid)) = 0 →
      saveWaterIntake config pd now fid opts db = (WaterResult.errorSaving, db)) ∧
    (∀ config pd now fid (opts : WaterOpts) db,
      opts.entryId = none → db.reachable = true →
      (saveWaterIntake config pd now fid opts db).2.water =
        db.water ++ [newWaterEntry fid (ensureConfiguration config).userId
          (convertWaterAmount opts.amount opts.unit (normalizeWaterUnit opts.unit))
          (normalizeWaterUnit opts.unit) (consumedDate pd now opts.timestamp)
          (jsTruthy opts.notes)]) := by
  refine ⟨?_, ?_, ?_, ?_⟩
  · intro config pd now fid opts db eid hent heid hr hpos
    obtain ⟨h1, h2, h3, _, _⟩ :=
      saveWaterIntake_update_props config pd now fid opts db eid hent heid hr hpos
    exact ⟨h1, h2, h3⟩
  · intro config pd now fid fid' opts opts' db eid hent hent' heid hr hone
    obtain ⟨-, hlen1, hcount1, hreach1, -⟩ :=
      saveWaterIntake_update_props config pd now fid opts db eid hent heid hr
        (by rw [hone]; exact Nat.one_pos)
    obtain ⟨-, hlen2, hcount2, -, -⟩ :=
      saveWaterIntake_update_props config pd now fid' opts'
        (saveWaterIntake config pd now fid opts db).2 eid hent' heid hreach1
        (by rw [hcount1, hone]; exact Nat.one_pos)
    refine ⟨by rw [hcount2, hcount1, hone], by rw [hlen2, hlen1]⟩
  · intro config pd now fid opts db eid hent heid hzero
    have hjs : jsTruthy opts.entryId = some eid := by
      rw [hent]
      simp [jsTruthy, heid]
    have hex : db.water.any (fun e => e.id = eid) = false := by
      rcases hany : db.water.any (fun e => e.id = eid) with h | h
      · rfl
      · have := (any_id_iff_countP_pos db.water eid).mp hany
        rw [hzero] at this
        exact absurd this (by simp)
    exact saveWaterIntake_notFound_branch config pd now fid opts db eid hjs hex
  · intro config pd now fid opts db hent hr
    have hjs : jsTruthy opts.entryId = none := by rw [hent]; rfl
    rw [saveWaterIntake_create_branch config pd now fid opts db hjs hr]

/-- Witness for C5 (amended): updating an existing entry twice keeps one
matching record. -/
theorem c5_amended_upsert_semantics_witness :
    ((saveWaterIntake cfg0 (fun _ => d0) d0 "w2" ⟨300, "ml", none, none, some "e1"⟩
        (saveWaterIntake cfg0 (fun _ => d0) d0 "w1" ⟨250, "ml", none, none, some "e1"⟩
          ⟨[newWaterEntry "e1" "u1" 100 "ml" d0 none], [], true⟩).2).2.water.countP
        (fun e => decide (e.id = "e1")) = 1 ∧
     (saveWaterIntake cfg0 (fun _ => d0) d0 "w2" ⟨300, "ml", none, none, some "e1"⟩
        (saveWaterIntake cfg0 (fun _ => d0) d0 "w1" ⟨250, "ml", none, none, some "e1"⟩
          ⟨[newWaterEntry "e1" "u1" 100 "ml" d0 none], [], true⟩).2).2.water.length
        = [newWaterEntry "e1" "u1" 100 "ml" d0 none].length) :=
  c5_amended_upsert_semantics.2.1 cfg0 (fun _ => d0) d0 "w1" "w2"
    ⟨250, "ml", none, none, some "e1"⟩ ⟨300, "ml", none, none, some "e1"⟩
    ⟨[newWaterEntry "e1" "u1" 100 "ml" d0 none], [], true⟩ "e1" rfl rfl
    (by decide) rfl (by decide)

/-! ## C6 -/

/-- C6: during dispatch of one assistant turn, a tool name outside the
registry makes the whole dispatch throw (fatal — surfaced upstream as an
error event), whereas a registered handler whose backing store is
unreachable does not abort: its invocation still resolves, yielding an
error-shaped tool result that is fed back to the model. -/
theorem c6_unknown_fatal_handler_recoverable :
    (∀ (env : Env) (msgs : List Message) (tc : ToolCall),
      tc ∈ lastToolCalls msgs → tc.name ∉ registeredToolNames →
      ∃ e, storeData env msgs = .error e) ∧
    (∀ (env : Env) (msgs : List Message),
      (∀ tc ∈ lastToolCalls msgs, ∀ j, ∃ m, invokeTool env j tc = .ok m) →
      ∃ results, storeData env msgs = .ok results) ∧
    (∀ (env : Env) (k : Nat) (opts : WaterOpts) (cid : String),
      env.db.reachable = false →
      invokeTool env k ⟨"saveWaterIntake", ToolArgs.water opts, cid⟩
        = .ok ⟨ToolOutcome.waterOutcome WaterResult.errorSaving, cid,
            "saveWaterIntake"⟩) ∧
    (∀ (env : Env) (k : Nat) (opts : FoodOpts) (cid : String),
      env.db.reachable = false →
      invokeTool env k ⟨"saveFoodIntake", ToolArgs.food opts, cid⟩
        = .ok ⟨ToolOutcome.foodOutcome FoodResult.errorSaving, cid,
            "saveFoodIntake"⟩) := by
  refine ⟨?_, ?_, ?_, ?_⟩
  · intro env msgs tc hmem hname
    refine collectToolResults_error env (lastToolCalls msgs) 0 tc hmem ?_
    intro j
    refine ⟨"Tool " ++ tc.name ++ " not found", ?_⟩
    unfold invokeTool
    rw [if_neg hname]
  · intro env msgs h
    obtain ⟨res, hres, -, -⟩ := collectToolResults_ok env (lastToolCalls msgs) 0 h
    exact ⟨res, hres⟩
  · intro env k opts cid hr
    have h := saveWaterIntake_unreachable env.config env.parseDate env.now
      (env.freshId k) opts env.db hr
    simp [invokeTool, registeredToolNames, h]
  · intro env k opts cid hr
    have h := saveFoodIntake_unreachable env.config env.parseDate env.now
      (env.freshId k) opts env.db hr
    simp [invokeTool, registeredToolNames, h]

/-- Witness for C6: an unregistered tool name makes the concrete dispatch
reject, and a water call against the unreachable store resolves with the
error-shaped result. -/
theorem c6_unknown_fatal_handler_recoverable_witness :
    (∃ e, storeData env0 [Message.assistant "" [unknownCall]] = .error e) ∧
    invokeTool envDown 0 ⟨"saveWaterIntake",
        ToolArgs.water ⟨500, "ml", none, none, none⟩, "call1"⟩
      = .ok ⟨ToolOutcome.waterOutcome WaterResult.errorSaving, "call1",
          "saveWaterIntake"⟩ :=
  ⟨c6_unknown_fatal_handler_recoverable.1 env0 [Message.assistant "" [unknownCall]]
      unknownCall (by decide) (by decide),
   c6_unknown_fatal_handler_recoverable.2.2.1 envDown 0
      ⟨500, "ml", none, none, none⟩ "call1" rfl⟩

lemma quantityMatchRaw_no_digit (s : String) (h : startsWithDigit s = false) :
    quantityMatchRaw s = none := by
  unfold quantityMatchRaw matchLeadingNumberRaw
  unfold startsWithDigit at h
  cases hs : s.data with
  | nil => simp
  | cons c cs =>
    rw [hs] at h
    have h' : c.isDigit = false := h
    simp [List.takeWhile_cons, h']

/-- C7: the free-text quantity parser takes a leading number as the
magnitude and the trailing text as the unit; with no leading digit the
magnitude is `null` and the unit is the raw input; `"150g"`, `"1 cup"`
and `"apple"` parse as the claim states. -/
theorem c7_quantity_parsing :
    parseQuantity "150g" = (some 150, some "g") ∧
    parseQuantity "1 cup" = (some 1, some "cup") ∧
    parseQuantity "apple" = (none, some "apple") ∧
    (∀ s : String, startsWithDigit s = false → parseQuantity s = (none, some s)) ∧
    (∀ config pd now fid (opts : FoodOpts) db, db.reachable = true →
      ∃ entry : FoodEntry,
        (saveFoodIntake config pd now fid opts db).2.food = db.food ++ [entry] ∧
        entry.quantityValue = (parseQuantity opts.quantity).1 ∧
        entry.unit = (parseQuantity opts.quantity).2) := by
  refine ⟨?_, ?_, ?_, ?_, ?_⟩
  · refine parseQuantity_pos _ ['1','5','0'] [] (some "g") 150 (by decide) ?_
    rw [decimalValue_nilFrac]
    norm_num [show digitsToNat ['1','5','0'] = 150 from by decide]
  · refine parseQuantity_pos _ ['1'] [] (some "cup") 1 (by decide) ?_
    rw [decimalValue_nilFrac]
    norm_num [show digitsToNat ['1'] = 1 from by decide]
  · exact parseQuantity_neg _ (by decide)
  · intro s h
    exact parseQuantity_neg s (quantityMatchRaw_no_digit s h)
  · intro config pd now fid opts db hr
    rw [saveFoodIntake_reachable config pd now fid opts db hr]
    exact ⟨_, rfl, rfl, rfl⟩

/-- Witness for C7: the general no-leading-number clause applied at
`"apple"` and the storage clause at a concrete call. -/
theorem c7_quantity_parsing_witness :
    ∃ entry : FoodEntry,
      (saveFoodIntake cfg0 (fun _ => d0) d0 "f1"
          ⟨"Apple", "1 medium apple", none, none, none, none, none, none, none⟩
          emptyDB).2.food = [] ++ [entry] ∧
      entry.quantityValue = (parseQuantity "1 medium apple").1 ∧
      entry.unit = (parseQuantity "1 medium apple").2 :=
  c7_quantity_parsing.2.2.2.2 cfg0 (fun _ => d0) d0 "f1"
    ⟨"Apple", "1 medium apple", none, none, none, none, none, none, none⟩
    emptyDB rfl

/-! ## C8 -/

/-- C8: when `saveFoodIntake` receives no explicit meal type, the stored
meal type is derived from the local hour of the consumption timestamp:
hours 5–10 map to breakfast, 11–15 to lunch, 16–21 to dinner and all
others to snack; in particular hours 7, 13, 19 and 2 give breakfast,
lunch, dinner and snack. -/
theorem c8_meal_type_inference :
    (∀ d : JsDate,
      (5 ≤ (d.localHour : Nat) ∧ (d.localHour : Nat) ≤ 10 →
        determineMealTypeFromTime d = "breakfast") ∧
      (11 ≤ (d.localHour : Nat) ∧ (d.localHour : Nat) ≤ 15 →
        determineMealTypeFromTime d = "lunch") ∧
      (16 ≤ (d.localHour : Nat) ∧ (d.localHour : Nat) ≤ 21 →
        determineMealTypeFromTime d = "dinner") ∧
      ((d.localHour : Nat) < 5 ∨ 21 < (d.localHour : Nat) →
        determineMealTypeFromTime d = "snack")) ∧
    determineMealTypeFromTime ⟨⟨7, by decide⟩, ""⟩ = "breakfast" ∧
    determineMealTypeFromTime ⟨⟨13, by decide⟩, ""⟩ = "lunch" ∧
    determineMealTypeFromTime ⟨⟨19, by decide⟩, ""⟩ = "dinner" ∧
    determineMealTypeFromTime ⟨⟨2, by decide⟩, ""⟩ = "snack" ∧
    (∀ config pd now fid (opts : FoodOpts) db, db.reachable = true →
      opts.mealType = none →
      ∃ entry : FoodEntry,
        (saveFoodIntake config pd now fid opts db).2.food = db.food ++ [entry] ∧
        entry.mealType
          = determineMealTypeFromTime (consumedDate pd now opts.timestamp) ∧
        (saveFoodIntake config pd now fid opts db).1
          = FoodResult.stored fid opts.quantity opts.foodItem
              (determineMealTypeFromTime (consumedDate pd now opts.timestamp))) := by
  refine ⟨?_, by decide, by decide, by decide, by decide, ?_⟩
  · intro d
    refine ⟨?_, ?_, ?_, ?_⟩ <;> intro h <;>
      simp only [determineMealTypeFromTime] <;> split_ifs with h1 h2 h3 <;>
      first
        | rfl
        | omega
  · intro config pd now fid opts db hr hmt
    have hjs : jsTruthy opts.mealType = none := by rw [hmt]; rfl
    have h := saveFoodIntake_reachable config pd now fid opts db hr
    rw [hjs] at h
    rw [h]
    exact ⟨_, rfl, rfl, rfl⟩

/-- Witness for C8: a concrete call without meal type at local hour 12
stores `lunch`. -/
theorem c8_meal_type_inference_witness :
    ∃ entry : FoodEntry,
      (saveFoodIntake cfg0 (fun _ => d0) d0 "f1"
          ⟨"Rice", "1 cup", none, none, none, none, none, none, none⟩
          emptyDB).2.food = [] ++ [entry] ∧
      entry.mealType
        = determineMealTypeFromTime (consumedDate (fun _ => d0) d0 none) ∧
      (saveFoodIntake cfg0 (fun _ => d0) d0 "f1"
          ⟨"Rice", "1 cup", none, none, none, none, none, none, none⟩
          emptyDB).1
        = FoodResult.stored "f1" "1 cup" "Rice"
            (determineMealTypeFromTime (consumedDate (fun _ => d0) d0 none)) :=
  c8_meal_type_inference.2.2.2.2.2 cfg0 (fun _ => d0) d0 "f1"
    ⟨"Rice", "1 cup", none, none, none, none, none, none, none⟩ emptyDB rfl rfl

/-! ## C9 -/

/-- C9 counterexample: `Date.now()` is only non-decreasing, so two text
fragments handled within the same millisecond receive the same event id.
Under the (legitimate) constant clock both `message` events carry id 42:
the emitted ids are not pairwise distinct, contradicting "monotonically
distinct id". -/
theorem c9_distinct_id_counterexample :
    Monotone (fun _ : Nat => (42 : Nat)) ∧
    streamLoop (fun _ => 42) (fun _ => "2025-01-01T00:00:00.000Z") 0
        [StreamChunk.aiChunk "Hel" [], StreamChunk.aiChunk "lo" []]
      = [⟨42, "message", "Hel", "2025-01-01T00:00:00.000Z"⟩,
         ⟨42, "message", "lo", "2025-01-01T00:00:00.000Z"⟩] ∧
    ¬ ((streamLoop (fun _ => 42) (fun _ => "2025-01-01T00:00:00.000Z") 0
          [StreamChunk.aiChunk "Hel" [], StreamChunk.aiChunk "lo" []]).map
        (fun e => e.id)).Nodup := by
  refine ⟨monotone_const, rfl, ?_⟩
  have he : ((streamLoop (fun _ => 42) (fun _ => "2025-01-01T00:00:00.000Z") 0
        [StreamChunk.aiChunk "Hel" [], StreamChunk.aiChunk "lo" []]).map
      (fun e => e.id)) = [42, 42] := rfl
  rw [he]
  decide

/-- C9 (amended): for every AI fragment without tool-call chunks the
gateway emits exactly one `message` event carrying the fragment's text,
an id equal to the wall-clock reading at emission and an ISO timestamp;
fragments carrying tool-call chunks, and non-AI chunks, are never
forwarded; the ids are non-decreasing (the clock being so), and pairwise
distinct exactly when the clock strictly increased between emissions —
not unconditionally. -/
theorem c9_amended_streaming :
    (∀ (clock : Nat → Nat) (iso : Nat → String) (k : Nat)
        (chunks : List StreamChunk),
      (streamLoop clock iso k chunks).map (fun e => e.content)
        = visibleTexts chunks) ∧
    (∀ (clock : Nat → Nat) (iso : Nat → String) (k : Nat)
        (chunks : List StreamChunk) (e : StreamEvent),
      e ∈ streamLoop clock iso k chunks →
      e.type = "message" ∧ ∃ j, k ≤ j ∧ e.id = clock j ∧ e.timestamp = iso j) ∧
    (∀ (clock : Nat → Nat) (iso : Nat → String) (k : Nat) (content : String)
        (tccs : List String) (rest : List StreamChunk), tccs.length ≠ 0 →
      streamLoop clock iso k (StreamChunk.aiChunk content tccs :: rest)
        = streamLoop clock iso k rest) ∧
    (∀ (clock : Nat → Nat) (iso : Nat → String) (k : Nat) (content : String)
        (rest : List StreamChunk),
      streamLoop clock iso k (StreamChunk.otherChunk content :: rest)
        = streamLoop clock iso k rest) ∧
    (∀ (clock : Nat → Nat) (iso : Nat → String) (k : Nat)
        (chunks : List StreamChunk), Monotone clock →
      ((streamLoop clock iso k chunks).map (fun e => e.id)).Sorted (· ≤ ·)) ∧
    (∀ (clock : Nat → Nat) (iso : Nat → String) (k : Nat)
        (chunks : List StreamChunk), StrictMono clock →
      ((streamLoop clock iso k chunks).map (fun e => e.id)).Sorted (· < ·)) :=
  ⟨fun clock iso k chunks => streamLoop_contents clock iso chunks k,
   fun clock iso k chunks e => streamLoop_mem clock iso chunks k e,
   fun clock iso k content tccs rest h =>
     streamLoop_cons_tool clock iso k content tccs rest h,
   fun clock iso k content rest => streamLoop_cons_other clock iso k content rest,
   fun clock iso k chunks hm => streamLoop_ids_sorted clock iso hm chunks k,
   fun clock iso k chunks hm => streamLoop_ids_strictSorted clock iso hm chunks k⟩

/-- Witness for C9 (amended): with a strictly increasing clock the
concrete two-fragment stream gets strictly increasing ids. -/
theorem c9_amended_streaming_witness :
    ((streamLoop (fun n => n) (fun _ => "t") 0
        [StreamChunk.aiChunk "a" [], StreamChunk.aiChunk "b" []]).map
      (fun e => e.id)).Sorted (· < ·) :=
  c9_amended_streaming.2.2.2.2.2 (fun n => n) (fun _ => "t") 0
    [StreamChunk.aiChunk "a" [], StreamChunk.aiChunk "b" []] strictMono_id

/-! ## C10 -/

/-- C10: resuming a thread from its checkpoint and running one turn with
a new human message yields exactly the history an in-memory,
checkpoint-free run on the checkpointed history would produce: the
checkpointed history followed by the new message and the turn's
subsequent messages. -/
theorem c10_checkpoint_resume_equiv (oracle : List Message → AssistantReply)
    (env : Env) (fuel : Nat) (cp : String → List Message) (tid : String)
    (H : List Message) (m : Message) (h : cp tid = H) :
    runTurnFromCheckpoint oracle env fuel cp tid m tid
      = runLoop oracle env fuel (H ++ [m]) ∧
    ∃ rest, runLoop oracle env fuel (H ++ [m]) = H ++ m :: rest := by
  constructor
  · unfold runTurnFromCheckpoint
    rw [h]
    exact runLoopCheckpointed_at_tid oracle env fuel (H ++ [m]) cp tid
  · obtain ⟨rest, hr⟩ := runLoop_extends oracle env fuel (H ++ [m])
    exact ⟨rest, by rw [hr]; simp⟩

/-- Witness for C10 at a concrete checkpoint and turn. -/
theorem c10_checkpoint_resume_equiv_witness :
    runTurnFromCheckpoint oracle0 env0 1 cpH "t1" (Message.human "hi") "t1"
      = runLoop oracle0 env0 1 ([Message.human "earlier"] ++ [Message.human "hi"]) ∧
    ∃ rest, runLoop oracle0 env0 1 ([Message.human "earlier"] ++ [Message.human "hi"])
      = [Message.human "earlier"] ++ Message.human "hi" :: rest :=
  c10_checkpoint_resume_equiv oracle0 env0 1 cpH "t1"
    [Message.human "earlier"] (Message.human "hi") rfl

end Dietify
